import Mathlib

/-!
Shallow embedding of the `argparse` command-line parsing library
(`src/arg_parser.hpp`): the `Argument` option specification with its
builder methods and `validate`, the `ParsedArgs` value table with its
typed `get`, and the `ArgumentParser` with `build_lookup`,
`parse_args` and `convert_value`.

Modelling conventions:
* C++ `int` is `Int` with the `std::stoi` out-of-range check made
  explicit (success exactly when the parsed value fits in 32-bit int);
* C++ `float` is `Rat`: `std::stof` is modelled by its exact decimal
  reading (sign, digits, optional fraction, optional exponent); the
  rounding of that exact value to binary `float`, the hexadecimal /
  infinity / NaN spellings and the float overflow exception are
  abstracted away — no claim below depends on them;
* exceptions are `Except String`; `std::exit(0)` on the help paths is
  the distinguished outcome `ParseOutcome.helpExit`;
* the process environment (`std::getenv`) is an injected function
  `Env := String → Option String`;
* `std::map` / `std::unordered_map` are association lists with
  overwrite-on-assign (`alSet`) and lookup (`alGet?`); only lookup
  and assignment are used by the source, so iteration order of the
  hash map is irrelevant.
-/

namespace ArgParse

/-- Association-list assignment, `m[k] = v` of `std::map`: replaces the
binding if the key is present, appends it otherwise. -/
def alSet {β : Type} : List (String × β) → String → β → List (String × β)
  | [], k, v => [(k, v)]
  | (k', v') :: rest, k, v =>
    if k' = k then (k, v) :: rest else (k', v') :: alSet rest k v

/-- Association-list lookup, `m.at(k)` / `m.count(k)` of `std::map`. -/
def alGet? {β : Type} : List (String × β) → String → Option β
  | [], _ => none
  | (k', v') :: rest, k => if k' = k then some v' else alGet? rest k

/-- `m.count(k) != 0`. -/
def alContains {β : Type} (m : List (String × β)) (k : String) : Bool :=
  (alGet? m k).isSome

/-- `std::string::starts_with`, computed on the character list (so
that it reduces inside the kernel; C++ compares bytes, which agrees on
the ASCII data exercised here). -/
def strStartsWith (s pre : String) : Bool :=
  pre.data.isPrefixOf s.data

/-- `std::string::substr(n)`: the string without its first `n`
characters. -/
def strDrop (s : String) (n : Nat) : String :=
  ⟨s.data.drop n⟩

/-- `std::string::size()`, in characters. -/
def strLen (s : String) : Nat :=
  s.data.length

instance {ε α : Type} [DecidableEq ε] [DecidableEq α] : DecidableEq (Except ε α) := fun x y =>
  match x, y with
  | .ok a, .ok b =>
    if h : a = b then .isTrue (by rw [h]) else .isFalse fun hh => h (Except.ok.inj hh)
  | .error a, .error b =>
    if h : a = b then .isTrue (by rw [h]) else .isFalse fun hh => h (Except.error.inj hh)
  | .ok _, .error _ => .isFalse fun hh => Except.noConfusion hh
  | .error _, .ok _ => .isFalse fun hh => Except.noConfusion hh

/-! ### `std::stoi` / `std::stof` -/

/-- The whitespace characters skipped by `strtol` / `strtof`
(`isspace` in the C locale). -/
def isSpaceChar (c : Char) : Bool :=
  c = ' ' ∨ c = '\t' ∨ c = '\n' ∨ c = Char.ofNat 11 ∨ c = Char.ofNat 12 ∨ c = '\r'

/-- Splits a character list into its leading run of decimal digits and
the remainder. -/
def spanDigits : List Char → List Char × List Char
  | [] => ([], [])
  | c :: cs =>
    if c.isDigit then
      let (d, r) := spanDigits cs
      (c :: d, r)
    else ([], c :: cs)

/-- Numeric value of a digit run. -/
def digitsToNat (ds : List Char) : Nat :=
  ds.foldl (fun a c => 10 * a + (c.toNat - 48)) 0

def int32Min : Int := -2147483648
def int32Max : Int := 2147483647

/-- `std::stoi(s, &pos)` (base 10): skips leading whitespace, reads an
optional sign and a nonempty digit run; `none` when no digits are found
(`invalid_argument`) or the value is outside `int` range
(`out_of_range`); otherwise the value and the number of characters
consumed. -/
def stoiPos (s : String) : Option (Int × Nat) :=
  let cs := s.toList
  let wsLen := (cs.takeWhile isSpaceChar).length
  let r0 := cs.drop wsLen
  let (sign, signLen, r1) : Int × Nat × List Char :=
    match r0 with
    | '-' :: r => (-1, 1, r)
    | '+' :: r => (1, 1, r)
    | r => (1, 0, r)
  let (ds, _) := spanDigits r1
  if ds = [] then none
  else
    let v : Int := sign * (digitsToNat ds : Int)
    if v < int32Min ∨ v > int32Max then none
    else some (v, wsLen + signLen + ds.length)

/-- `std::stoi(s)` without the position. -/
def stoi (s : String) : Option Int :=
  (stoiPos s).map Prod.fst

/-- `std::stof(s, &pos)` restricted to decimal spellings: skips leading
whitespace, reads an optional sign, a digit run optionally containing
one period (at least one digit overall), and an optional exponent part
(`e`/`E`, optional sign, nonempty digit run — not consumed when its
digits are missing); `none` when no conversion is possible.  The value
is returned exactly as a rational. -/
def stofPos (s : String) : Option (Rat × Nat) :=
  let cs := s.toList
  let wsLen := (cs.takeWhile isSpaceChar).length
  let r0 := cs.drop wsLen
  let (neg, signLen, r1) : Bool × Nat × List Char :=
    match r0 with
    | '-' :: r => (true, 1, r)
    | '+' :: r => (false, 1, r)
    | r => (false, 0, r)
  let (ip, r2) := spanDigits r1
  let (hasDot, fp, r3) : Bool × List Char × List Char :=
    match r2 with
    | '.' :: r =>
      let (f, rr) := spanDigits r
      (true, f, rr)
    | r => (false, [], r)
  if ip = [] ∧ fp = [] then none
  else
    let mantissa : Rat :=
      (digitsToNat ip : Rat) + (digitsToNat fp : Rat) / ((10 : Rat) ^ fp.length)
    let mLen := wsLen + signLen + ip.length + (if hasDot then 1 + fp.length else 0)
    let (expLen, expVal) : Nat × Int :=
      match r3 with
      | c :: r4 =>
        if c = 'e' ∨ c = 'E' then
          match r4 with
          | '+' :: r5 =>
            let (ed, _) := spanDigits r5
            if ed = [] then (0, 0) else (2 + ed.length, (digitsToNat ed : Int))
          | '-' :: r5 =>
            let (ed, _) := spanDigits r5
            if ed = [] then (0, 0) else (2 + ed.length, -(digitsToNat ed : Int))
          | r5 =>
            let (ed, _) := spanDigits r5
            if ed = [] then (0, 0) else (1 + ed.length, (digitsToNat ed : Int))
        else (0, 0)
      | [] => (0, 0)
    let value : Rat := (if neg then -1 else 1) * mantissa * (10 : Rat) ^ expVal
    some (value, mLen + expLen)

/-! ### The tagged value `std::variant<int, float, std::string, bool>` -/

/-- `std::variant<int, float, std::string, bool>`, used both for
defaults and for resolved values. -/
inductive CppValue
  | vInt (i : Int)
  | vFloat (q : Rat)
  | vStr (s : String)
  | vBool (b : Bool)
deriving DecidableEq

/-- The runtime alternative tags of the variant. -/
inductive Tag
  | tInt
  | tFloat
  | tStr
  | tBool
deriving DecidableEq

def CppValue.tag : CppValue → Tag
  | .vInt _ => .tInt
  | .vFloat _ => .tFloat
  | .vStr _ => .tStr
  | .vBool _ => .tBool

/-- `std::holds_alternative<int>`. -/
def CppValue.holdsInt : CppValue → Bool
  | .vInt _ => true
  | _ => false

def CppValue.holdsFloat : CppValue → Bool
  | .vFloat _ => true
  | _ => false

def CppValue.holdsStr : CppValue → Bool
  | .vStr _ => true
  | _ => false

def CppValue.holdsBool : CppValue → Bool
  | .vBool _ => true
  | _ => false

/-! ### The `Argument` option specification -/

/-- `Argument::ArgType`. -/
inductive ArgType
  | INT
  | FLOAT
  | STRING
  | BOOL
  | AUTO
deriving DecidableEq

/-- The injected process environment (`std::getenv`). -/
abbrev Env := String → Option String

/-- The `Argument` class: one option specification.  The
`std::function` custom validator is an optional Lean function; field
initialisers mirror the in-class member initialisers, with
`default_value` starting as the variant's first alternative `int 0`
(`std::variant` default construction). -/
structure Argument where
  name : String
  aliases : List String := []
  help : String := ""
  required : Bool := false
  default_value : CppValue := .vInt 0
  is_flag : Bool := false
  min_value : Option Int := none
  max_value : Option Int := none
  env_var : Option String := none
  choices : List String := []
  type : ArgType := .AUTO
  custom_validator : Option (String → Bool) := none
  custom_validator_error : Option String := none

instance : Inhabited Argument := ⟨{ name := "" }⟩

/-- `Argument::normalize_name`: strips one leading `--` or `-`. -/
def normalize_name (name : String) : String :=
  if strStartsWith name "--" then strDrop name 2
  else if strStartsWith name "-" then strDrop name 1
  else name

/-- The `Argument(std::string name)` constructor: stores the name
verbatim (no normalisation is applied to it). -/
def Argument.mk0 (name : String) : Argument := { name := name }

/-- `Argument::help`. -/
def Argument.set_help (a : Argument) (text : String) : Argument :=
  { a with help := text }

/-- `Argument::required`. -/
def Argument.set_required (a : Argument) (req : Bool) : Argument :=
  { a with required := req }

/-- `Argument::add_alias`: normalises, then rejects an empty alias or
one equal to the canonical name. -/
def Argument.add_alias (a : Argument) (alias0 : String) : Except String Argument :=
  let al := normalize_name alias0
  if al = "" ∨ al = a.name then .error "Invalid alias"
  else .ok { a with aliases := a.aliases ++ [al] }

/-- `Argument::default_value<T>`. -/
def Argument.set_default (a : Argument) (val : CppValue) : Argument :=
  { a with default_value := val }

/-- `Argument::flag`: enables flag mode and, when enabling, forces the
default to boolean `false`. -/
def Argument.flag (a : Argument) (set : Bool) : Argument :=
  { a with is_flag := set,
           default_value := if set then .vBool false else a.default_value }

/-- `Argument::min_value`. -/
def Argument.set_min (a : Argument) (val : Int) : Argument :=
  { a with min_value := some val }

/-- `Argument::max_value`. -/
def Argument.set_max (a : Argument) (val : Int) : Argument :=
  { a with max_value := some val }

/-- `Argument::env`. -/
def Argument.set_env (a : Argument) (var_name : String) : Argument :=
  { a with env_var := some var_name }

/-- `Argument::choices`. -/
def Argument.set_choices (a : Argument) (options : List String) : Argument :=
  { a with choices := options }

/-- `Argument::set_type<int>(INT, 0)` as called by `type_int`: sets the
type and resets the default to the type's zero value unless its tag
already matches. -/
def Argument.type_int (a : Argument) : Argument :=
  { a with type := .INT,
           default_value := if a.default_value.holdsInt then a.default_value else .vInt 0 }

/-- `Argument::type_float`. -/
def Argument.type_float (a : Argument) : Argument :=
  { a with type := .FLOAT,
           default_value := if a.default_value.holdsFloat then a.default_value else .vFloat 0 }

/-- `Argument::type_string`. -/
def Argument.type_string (a : Argument) : Argument :=
  { a with type := .STRING,
           default_value := if a.default_value.holdsStr then a.default_value else .vStr "" }

/-- `Argument::type_bool`. -/
def Argument.type_bool (a : Argument) : Argument :=
  { a with type := .BOOL,
           default_value := if a.default_value.holdsBool then a.default_value else .vBool false }

/-- `Argument::custom_validation`. -/
def Argument.custom_validation (a : Argument) (validate_fn : String → Bool)
    (error_message : String) : Argument :=
  { a with custom_validator := some validate_fn,
           custom_validator_error := some error_message }

/-- `Argument::get_env_value`: consults the injected environment under
the configured variable name (the `std::cout` diagnostics are I/O and
not modelled). -/
def Argument.get_env_value (a : Argument) (env : Env) : Option String :=
  match a.env_var with
  | none => none
  | some v => env v

/-- `Argument::join_strings`. -/
def join_strings : List String → String → String
  | [], _ => ""
  | [x], _ => x
  | x :: xs, delim => x ++ delim ++ join_strings xs delim

/-- The trailing custom-validator check of `Argument::validate`. -/
def Argument.customCheck (a : Argument) (value_str : String) : Except String Unit :=
  match a.custom_validator with
  | some f =>
    if f value_str then .ok ()
    else .error (a.custom_validator_error.getD "Validation failed.")
  | none => .ok ()

/-- The built-in (pre-custom-validator) part of `Argument::validate`:
the Int type/range branch, else the choice-set branch.  In the source
the range errors thrown inside the `try` block are caught by the
surrounding `catch (...)` and rethrown as
`"Invalid integer value: <s>"`, so that message covers both parse
failure and out-of-range values. -/
def Argument.builtinCheck (a : Argument) (value_str : String) : Except String Unit :=
  if a.type = .INT then
    if value_str = "" then .error "Missing integer value"
    else
      match stoi value_str with
      | none => .error ("Invalid integer value: " ++ value_str)
      | some v =>
        if (match a.min_value with | some m => decide (v < m) | none => false) then
          .error ("Invalid integer value: " ++ value_str)
        else if (match a.max_value with | some m => decide (v > m) | none => false) then
          .error ("Invalid integer value: " ++ value_str)
        else .ok ()
  else if a.choices ≠ [] then
    if a.choices.contains value_str then .ok ()
    else .error ("Invalid choice. Options: " ++ join_strings a.choices ", ")
  else .ok ()

/-- `Argument::validate`: the built-in check, then the custom
validator. -/
def Argument.validate (a : Argument) (value_str : String) : Except String Unit := do
  a.builtinCheck value_str
  a.customCheck value_str

/-! ### The `ParsedArgs` value table -/

/-- The result of `parse_args`: `std::map<std::string, variant>`. -/
structure ParsedArgs where
  values : List (String × CppValue)
deriving DecidableEq

/-- The two exceptions `ParsedArgs::get` can raise:
`std::out_of_range` from `map::at` on an unknown key, and
`std::bad_variant_access` from `std::get<T>` on a tag mismatch. -/
inductive GetError
  | out_of_range
  | bad_variant_access
deriving DecidableEq

/-- The key computation of `ParsedArgs::get`: strips one leading `--`
or `-` from the query name. -/
def queryKey (name : String) : String :=
  if strStartsWith name "--" then strDrop name 2
  else if strStartsWith name "-" then strDrop name 1
  else name

/-- `ParsedArgs::get<T>`: strips one leading `--` or `-` from the query
name, looks the key up in the table (`at` throws on a missing key) and
extracts the alternative for tag `t` (`std::get` throws on a tag
mismatch). -/
def ParsedArgs.get (p : ParsedArgs) (t : Tag) (name : String) : Except GetError CppValue :=
  match alGet? p.values (queryKey name) with
  | none => .error .out_of_range
  | some v => if v.tag = t then .ok v else .error .bad_variant_access

/-! ### The `ArgumentParser` -/

/-- The `ArgumentParser` class state: the registered specs in insertion
order and the name→spec-index lookup (`std::unordered_map`). -/
structure ArgumentParser where
  auto_help : Bool := true
  prog_name : String
  args : List Argument := []
  arg_index : List (String × Nat) := []

/-- The `ArgumentParser(std::string prog_name)` constructor. -/
def ArgumentParser.mk0 (prog_name : String) : ArgumentParser :=
  { prog_name := prog_name }

/-- `ArgumentParser::auto_help`. -/
def ArgumentParser.set_auto_help (p : ArgumentParser) (enable : Bool) : ArgumentParser :=
  { p with auto_help := enable }

/-- `ArgumentParser::add_argument(name)`: appends `Argument(name)`.
The C++ call returns a reference to the new spec for chaining. -/
def ArgumentParser.add_argument (p : ArgumentParser) (name : String) : ArgumentParser :=
  { p with args := p.args ++ [Argument.mk0 name] }

/-- `add_argument(name)` followed by chained builder calls configuring
the returned reference: appends the fully configured spec. -/
def ArgumentParser.add_argument_spec (p : ArgumentParser) (a : Argument) : ArgumentParser :=
  { p with args := p.args ++ [a] }

/-- The alias-insertion inner loop of `build_lookup`, on one spec's
alias list: fails on an alias already present, otherwise maps it to the
spec's index.  Returns the (possibly partially updated) map and the
error, if any. -/
def insert_aliases (aliases : List String) (i : Nat) :
    List (String × Nat) → List (String × Nat) × Option String
  | m =>
    match aliases with
    | [] => (m, none)
    | al :: rest =>
      if alContains m al then (m, some ("Duplicate alias: -" ++ al))
      else insert_aliases rest i (alSet m al i)

/-- The spec loop of `build_lookup`: for each spec in insertion order,
assigns its canonical name (plain map assignment — an existing binding
is silently overwritten), then inserts its aliases. -/
def build_lookup_go : List Argument → Nat → List (String × Nat) →
    List (String × Nat) × Option String
  | [], _, m => (m, none)
  | arg :: rest, i, m =>
    let m1 := alSet m arg.name i
    match insert_aliases arg.aliases i m1 with
    | (m2, some e) => (m2, some e)
    | (m2, none) => build_lookup_go rest (i + 1) m2

/-- `ArgumentParser::build_lookup`: clears and repopulates
`arg_index_`.  The C++ function throws `ArgumentError`; here the error
is returned alongside the parser whose `arg_index` holds whatever was
inserted before the failure. -/
def ArgumentParser.build_lookup (p : ArgumentParser) : ArgumentParser × Option String :=
  let r := build_lookup_go p.args 0 []
  ({ p with arg_index := r.1 }, r.2)

/-- `args_[arg_index_.at(name)].is_flag()` guarded by
`arg_index_.count(name)` — the flag test in the token loop. -/
def is_flag_at (args : List Argument) (look : List (String × Nat)) (name : String) : Bool :=
  match alGet? look name with
  | some i => (args.getD i default).is_flag
  | none => false

/-- `provided_args[args_[arg_index_.at(name)].name()] = value`: records
the raw value under the spec's canonical name (last occurrence wins). -/
def record_provided (args : List Argument) (look : List (String × Nat))
    (prov : List (String × String)) (name value : String) : List (String × String) :=
  match alGet? look name with
  | some i => alSet prov (args.getD i default).name value
  | none => prov

/-- The token scan of `parse_args` (the `for` loop over `argv[1..]`):
splits each `--`/`-` token into a name, rejects unknown names, consumes
the next token as the value when it exists and does not itself start
with `-`, otherwise requires the option to be a flag (value stays the
empty string); bare tokens not consumed as values are skipped. -/
def token_loop (args : List Argument) (look : List (String × Nat)) :
    List String → List (String × String) → Except String (List (String × String))
  | [], prov => .ok prov
  | [tok], prov =>
    if strStartsWith tok "--" then
      let name := strDrop tok 2
      if ¬ alContains look name then .error ("Unrecognized argument: --" ++ name)
      else if ¬ is_flag_at args look name then .error ("Missing value for --" ++ name)
      else .ok (record_provided args look prov name "")
    else if strStartsWith tok "-" then
      let name := strDrop tok 1
      if ¬ alContains look name then .error ("Unrecognized argument: -" ++ name)
      else if ¬ is_flag_at args look name then .error ("Missing value for -" ++ name)
      else .ok (record_provided args look prov name "")
    else .ok prov
  | tok :: next :: rest2, prov =>
    if strStartsWith tok "--" then
      let name := strDrop tok 2
      if ¬ alContains look name then .error ("Unrecognized argument: --" ++ name)
      else if ¬ strStartsWith next "-" then
        token_loop args look rest2 (record_provided args look prov name next)
      else if ¬ is_flag_at args look name then .error ("Missing value for --" ++ name)
      else token_loop args look (next :: rest2) (record_provided args look prov name "")
    else if strStartsWith tok "-" then
      let name := strDrop tok 1
      if ¬ alContains look name then .error ("Unrecognized argument: -" ++ name)
      else if ¬ strStartsWith next "-" then
        token_loop args look rest2 (record_provided args look prov name next)
      else if ¬ is_flag_at args look name then .error ("Missing value for -" ++ name)
      else token_loop args look (next :: rest2) (record_provided args look prov name "")
    else token_loop args look (next :: rest2) prov

/-- `ArgumentParser::convert_value`: per-type conversion of a raw
string.  The whole `switch` sits in a `try` whose `catch (...)` turns
any conversion exception into `"Invalid value format"`; the `AUTO`
case swallows its own `stoi`/`stof` failures and never raises. -/
def convert_value (value_str : String) (t : ArgType) : Except String CppValue :=
  match t with
  | .INT =>
    match stoi value_str with
    | some i => .ok (.vInt i)
    | none => .error "Invalid value format"
  | .FLOAT =>
    match stofPos value_str with
    | some (f, _) => .ok (.vFloat f)
    | none => .error "Invalid value format"
  | .BOOL => .ok (.vBool (value_str = "true" ∨ value_str = "1"))
  | .STRING => .ok (.vStr value_str)
  | .AUTO =>
    if value_str = "true" ∨ value_str = "false" ∨ value_str = "1" ∨ value_str = "0" then
      .ok (.vBool (value_str = "true" ∨ value_str = "1"))
    else
      match stoiPos value_str with
      | some (i, pos) =>
        if pos = strLen value_str then .ok (.vInt i)
        else
          match stofPos value_str with
          | some (f, pos2) =>
            if pos2 = strLen value_str then .ok (.vFloat f) else .ok (.vStr value_str)
          | none => .ok (.vStr value_str)
      | none =>
        match stofPos value_str with
        | some (f, pos2) =>
          if pos2 = strLen value_str then .ok (.vFloat f) else .ok (.vStr value_str)
        | none => .ok (.vStr value_str)

/-- One iteration of the resolution loop of `parse_args`, for one
registered spec: writes the default into the table, then overwrites it
with the validated and converted provided value if one was recorded,
else with the validated and converted environment value if the
configured variable is set, else fails when the spec is required, else
keeps the default (no validation or conversion touches it). -/
def resolve_step (prov : List (String × String)) (env : Env)
    (res : ParsedArgs) (arg : Argument) : Except String ParsedArgs :=
  let res1 : ParsedArgs := ⟨alSet res.values arg.name arg.default_value⟩
  match alGet? prov arg.name with
  | some value_str => do
    arg.validate value_str
    let c ← convert_value value_str arg.type
    pure ⟨alSet res1.values arg.name c⟩
  | none =>
    match arg.get_env_value env with
    | some env_val => do
      arg.validate env_val
      let c ← convert_value env_val arg.type
      pure ⟨alSet res1.values arg.name c⟩
    | none =>
      if arg.required then .error ("Missing required argument: --" ++ arg.name)
      else .ok res1

/-- The resolution loop of `parse_args` over all registered specs in
insertion order. -/
def resolve_loop (prov : List (String × String)) (env : Env) :
    List Argument → ParsedArgs → Except String ParsedArgs
  | [], res => .ok res
  | arg :: rest, res => do
    let res' ← resolve_step prov env res arg
    resolve_loop prov env rest res'

/-- The outcome of `parse_args`: the help-and-`exit(0)` path, a thrown
`ArgumentError`, or a completed value table. -/
inductive ParseOutcome
  | helpExit
  | err (msg : String)
  | ok (res : ParsedArgs)
deriving DecidableEq

/-- `ArgumentParser::parse_args`.  `argv` is the full argument vector
including `argv[0]`; the updated parser (whose `arg_index` was rebuilt
by `build_lookup`) is returned alongside the outcome.  Steps, as in the
source: rebuild the lookup; help-and-exit when auto-help is on and no
arguments were given, or when any later token is `--help`/`-h`; scan
the tokens into the provided-value map; resolve every spec. -/
def ArgumentParser.parse_args (p : ArgumentParser) (env : Env) (argv : List String) :
    ArgumentParser × ParseOutcome :=
  match p.build_lookup with
  | (p1, some msg) => (p1, .err msg)
  | (p1, none) =>
    if p1.auto_help ∧ argv.length = 1 then (p1, .helpExit)
    else if (argv.drop 1).any (fun a => a = "--help" ∨ a = "-h") then (p1, .helpExit)
    else
      match token_loop p1.args p1.arg_index (argv.drop 1) [] with
      | .error e => (p1, .err e)
      | .ok prov =>
        match resolve_loop prov env p1.args ⟨[]⟩ with
        | .error e => (p1, .err e)
        | .ok res => (p1, .ok res)

/-! ### Concrete registries used by the example-level claims -/

/-- The `debug` option of `examples/basic_usage.cpp`:
`add_argument("debug").type_bool().flag().add_alias("d")`. -/
def debugArgument : Argument :=
  ((((Argument.mk0 "debug").type_bool).flag true).add_alias "d").toOption.getD default

/-- A parser registering only the `debug` flag. -/
def debugParser : ArgumentParser :=
  (ArgumentParser.mk0 "prog").add_argument_spec debugArgument

/-- The `count` option of `examples/basic_usage.cpp` (without
`required`): `add_argument("count").type_int().min_value(1).max_value(10)`. -/
def countArgument : Argument :=
  (((Argument.mk0 "count").type_int).set_min 1).set_max 10

/-- A parser registering only the `count` option. -/
def countParser : ArgumentParser :=
  (ArgumentParser.mk0 "prog").add_argument_spec countArgument

/-- A parser whose single option was registered under the dashed
spelling `--file`. -/
def dashFileParser : ArgumentParser :=
  (ArgumentParser.mk0 "prog").add_argument "--file"

/-- A registry in which two specs share the canonical name `x`. -/
def dupNameParser : ArgumentParser :=
  ((ArgumentParser.mk0 "prog").add_argument "x").add_argument "x"

/-- A string option `mode` with alias `m` and default `"x"`. -/
def modeArgument : Argument :=
  ((((Argument.mk0 "mode").type_string).set_default (.vStr "x")).add_alias "m").toOption.getD default

/-- A parser registering only the `mode` option. -/
def modeParser : ArgumentParser :=
  (ArgumentParser.mk0 "prog").add_argument_spec modeArgument

/-! ### Association-list lemmas -/

theorem alGet?_alSet {β : Type} (m : List (String × β)) (k k' : String) (v : β) :
    alGet? (alSet m k v) k' = if k = k' then some v else alGet? m k' := by
  induction m with
  | nil =>
    by_cases h : k = k' <;> simp [alSet, alGet?, h]
  | cons hd tl ih =>
    obtain ⟨a, b⟩ := hd
    by_cases hak : a = k
    · by_cases hkk : k = k' <;> simp [alSet, alGet?, hak, hkk]
    · by_cases hak' : a = k'
      · have h1 : ¬ k = k' := fun h => hak (h ▸ hak')
        have h2 : ¬ k' = k := fun h => h1 h.symm
        simp [alSet, alGet?, hak, hak', h1, h2]
      · simp [alSet, alGet?, hak, hak', ih]

theorem alContains_alSet {β : Type} (m : List (String × β)) (k k' : String) (v : β) :
    alContains (alSet m k v) k' = (k = k' ∨ alContains m k' : Bool) := by
  by_cases h : k = k' <;> simp [alContains, alGet?_alSet, h]

/-! ### Claim theorems -/

/-- Claim C1 (the code falsifies it): for the `debug` option configured
as a Bool-typed flag with alias `d`, parsing `["prog", "-d"]` records
the empty raw value, which `convert_value` turns into boolean `false`,
so the table holds `debug = false` — not `true` as the spec states;
omitting the token also yields `false` (shown with auto-help disabled
so that the empty vector reaches the resolution loop). -/
theorem C1_flag_presence_yields_false :
    (debugParser.parse_args (fun _ => none) ["prog", "-d"]).2
      = .ok ⟨[("debug", .vBool false)]⟩ ∧
    (⟨[("debug", .vBool false)]⟩ : ParsedArgs).get .tBool "debug" = .ok (.vBool false) ∧
    ((debugParser.set_auto_help false).parse_args (fun _ => none) ["prog"]).2
      = .ok ⟨[("debug", .vBool false)]⟩ := by
  refine ⟨by decide, by decide, by decide⟩

/-- Claim C6 (confirmed): for the Int option `count` with bounds
`[1, 10]`, `--count 5` parses to the integer `5`, while `--count 0`
and `--count abc` fail validation. -/
theorem C6_count_bounds :
    (countParser.parse_args (fun _ => none) ["prog", "--count", "5"]).2
      = .ok ⟨[("count", .vInt 5)]⟩ ∧
    (countParser.parse_args (fun _ => none) ["prog", "--count", "0"]).2
      = .err "Invalid integer value: 0" ∧
    (countParser.parse_args (fun _ => none) ["prog", "--count", "abc"]).2
      = .err "Invalid integer value: abc" := by
  refine ⟨by decide, by decide, by decide⟩

/-- Claim C8 (the code falsifies it): the `Argument` constructor stores
the registered name verbatim — `normalize_name` is applied only to
aliases — so registering `--file` keeps the dashes, and the token
`--file` (whose dashes the scanner strips) no longer matches the
stored name: parsing fails with `Unrecognized argument`. -/
theorem C8_dashed_registration_kept_verbatim :
    (Argument.mk0 "--file").name = "--file" ∧
    ((ArgumentParser.mk0 "prog").add_argument "--file").args = [Argument.mk0 "--file"] ∧
    (dashFileParser.parse_args (fun _ => none) ["prog", "--file", "data.txt"]).2
      = .err "Unrecognized argument: --file" := by
  refine ⟨rfl, rfl, by decide⟩

/-- Claim C2, counterexample: a registry in which two specs share the
canonical name `x` builds its lookup without any error — the second
spec silently overwrites the first — contradicting the claim that such
a registry never builds successfully. -/
theorem C2_counterexample_duplicate_names_build :
    (dupNameParser.build_lookup).2 = none ∧
    (dupNameParser.build_lookup).1.arg_index = [("x", 1)] := by
  refine ⟨by decide, by decide⟩

theorem alContains_alSet_self {β : Type} (m : List (String × β)) (k : String) (v : β) :
    alContains (alSet m k v) k = true := by
  rw [alContains_alSet]; simp

theorem alContains_alSet_of {β : Type} (m : List (String × β)) (k k' : String) (v : β)
    (h : alContains m k' = true) : alContains (alSet m k v) k' = true := by
  rw [alContains_alSet]; by_cases hk : k = k' <;> simp [hk, h]

theorem build_lookup_go_no_aliases (args : List Argument) :
    ∀ (i : Nat) (m : List (String × Nat)), (∀ a ∈ args, a.aliases = []) →
    (build_lookup_go args i m).2 = none := by
  induction args with
  | nil => intro i m _; rfl
  | cons a rest ih =>
    intro i m h
    have ha : a.aliases = [] := h a (List.mem_cons_self a rest)
    have hr : ∀ x ∈ rest, x.aliases = [] := fun x hx => h x (List.mem_cons_of_mem _ hx)
    simp [build_lookup_go, ha, insert_aliases, ih _ _ hr]

/-- Claim C2 (corrected): `build_lookup` raises `Duplicate alias` the
first time an *alias* collides with a name or alias already inserted —
so two specs sharing an alias, or a spec whose alias equals an earlier
spec's canonical name, never build — but duplicate canonical names are
never detected: a registry whose specs carry no aliases always builds
its lookup without error, later specs silently overwriting earlier
ones with the same name. -/
theorem C2_amended_duplicate_detection :
    (∀ p : ArgumentParser, (∀ a ∈ p.args, a.aliases = []) →
        (p.build_lookup).2 = none) ∧
    (∀ (p : ArgumentParser) (s1 s2 : Argument), p.args = [s1, s2] →
        s1.aliases = [] → s2.aliases = [s1.name] →
        (p.build_lookup).2 = some ("Duplicate alias: -" ++ s1.name)) ∧
    (∀ (p : ArgumentParser) (s1 s2 : Argument) (al : String), p.args = [s1, s2] →
        s1.aliases = [al] → s2.aliases = [al] →
        (p.build_lookup).2 = some ("Duplicate alias: -" ++ al)) := by
  refine ⟨?_, ?_, ?_⟩
  · intro p h
    exact build_lookup_go_no_aliases p.args 0 [] h
  · intro p s1 s2 hp h1 h2
    have hc : alContains (alSet (alSet [] s1.name 0) s2.name 1) s1.name = true :=
      alContains_alSet_of _ _ _ _ (alContains_alSet_self _ _ _)
    show (build_lookup_go p.args 0 []).2 = _
    rw [hp]
    simp [build_lookup_go, h1, h2, insert_aliases, hc]
  · intro p s1 s2 al hp h1 h2
    show (build_lookup_go p.args 0 []).2 = _
    rw [hp]
    by_cases hal : alContains (alSet [] s1.name 0) al = true
    · simp [build_lookup_go, h1, h2, insert_aliases, hal]
    · have hc : alContains (alSet (alSet (alSet [] s1.name 0) al 0) s2.name 1) al = true :=
        alContains_alSet_of _ _ _ _ (alContains_alSet_self _ _ _)
      simp [build_lookup_go, h1, h2, insert_aliases, hal, hc]

/-- Witness for `C2_amended_duplicate_detection`: the duplicate-name
registry builds with no error; a second spec aliased to the first
spec's name fails; two specs sharing the alias `v` fail. -/
theorem C2_amended_witness :
    (dupNameParser.build_lookup).2 = none ∧
    ((⟨true, "p", [Argument.mk0 "a", { Argument.mk0 "b" with aliases := ["a"] }],
        []⟩ : ArgumentParser).build_lookup).2
      = some ("Duplicate alias: -" ++ (Argument.mk0 "a").name) ∧
    ((⟨true, "p", [{ Argument.mk0 "a" with aliases := ["v"] },
        { Argument.mk0 "b" with aliases := ["v"] }], []⟩ : ArgumentParser).build_lookup).2
      = some ("Duplicate alias: -" ++ "v") :=
  ⟨C2_amended_duplicate_detection.1 dupNameParser (by decide),
   C2_amended_duplicate_detection.2.1 _ _ _ rfl rfl rfl,
   C2_amended_duplicate_detection.2.2 _ _ _ "v" rfl rfl rfl⟩

/-- A string option `color` with a declared choice set, as in
`examples/basic_usage.cpp`. -/
def colorArgument : Argument :=
  ((Argument.mk0 "color").type_string).set_choices ["RED", "GREEN", "BLUE"]

/-- Claim C5 (confirmed): in `validate`, the Int type/range branch and
the choice-set branch are mutually exclusive — an Int-typed option
validates identically with its choice set erased, so choices are never
enforced for it; a non-Int option with a non-empty choice set (and no
custom validator) validates exactly the literal members of the set;
and the custom validator is sequenced after whichever branch ran. -/
theorem C5_validate_branch_exclusivity :
    (∀ (a : Argument) (s : String), a.type = .INT →
        a.validate s = Argument.validate { a with choices := [] } s) ∧
    (∀ (a : Argument) (s : String), a.type ≠ .INT → a.choices ≠ [] →
        a.custom_validator = none →
        (a.validate s = .ok () ↔ s ∈ a.choices)) ∧
    (∀ (a : Argument) (s : String),
        a.validate s = (a.builtinCheck s).bind fun _ => a.customCheck s) := by
  refine ⟨?_, ?_, ?_⟩
  · intro a s h
    cases a
    simp_all [Argument.validate, Argument.builtinCheck, Argument.customCheck]
  · intro a s h1 h2 h3
    simp only [Argument.validate, Argument.builtinCheck, Argument.customCheck, h1, h2, h3,
      if_false, ne_eq, not_false_iff, if_true]
    by_cases hc : s ∈ a.choices <;>
      simp [hc, h1, h2, Bind.bind, Except.bind]
  · intro a s
    rfl

/-- Witness for `C5_validate_branch_exclusivity`: the Int option
`count` with bounds validates `7` the same with or without a choice
set; the `color` option accepts exactly its choice members (`GREEN`
in, `YELLOW` out); and `validate` on `count` factors through the
built-in check followed by the custom check. -/
theorem C5_witness :
    (countArgument.validate "7" = Argument.validate { countArgument with choices := [] } "7") ∧
    ((colorArgument.validate "GREEN" = .ok () ↔ "GREEN" ∈ colorArgument.choices) ∧
     (colorArgument.validate "YELLOW" = .ok () ↔ "YELLOW" ∈ colorArgument.choices)) ∧
    (countArgument.validate "7"
      = (countArgument.builtinCheck "7").bind fun _ => countArgument.customCheck "7") :=
  ⟨C5_validate_branch_exclusivity.1 countArgument "7" rfl,
   ⟨C5_validate_branch_exclusivity.2.1 colorArgument "GREEN" (by decide) (by decide) rfl,
    C5_validate_branch_exclusivity.2.1 colorArgument "YELLOW" (by decide) (by decide) rfl⟩,
   C5_validate_branch_exclusivity.2.2 countArgument "7"⟩

/-- Claim C9 (confirmed): for an Int-typed option (with no custom
validator), `validate` accepts every string whose `stoi` prefix parse
succeeds with a value inside the configured bounds — trailing
non-numeric characters are never examined — and `convert_value` then
yields exactly that parsed integer. -/
theorem C9_int_validate_ignores_trailing (a : Argument) (s : String) (v : Int) (pos : Nat)
    (ht : a.type = .INT) (hcv : a.custom_validator = none)
    (hp : stoiPos s = some (v, pos))
    (hmin : ∀ m, a.min_value = some m → m ≤ v)
    (hmax : ∀ m, a.max_value = some m → v ≤ m) :
    a.validate s = .ok () ∧ convert_value s a.type = .ok (.vInt v) := by
  have hs : ¬ s = "" := by
    intro h
    rw [h, show stoiPos "" = none from rfl] at hp
    exact Option.noConfusion hp
  have hstoi : stoi s = some v := by simp [stoi, hp]
  have hminb : (match a.min_value with | some m => decide (v < m) | none => false) = false := by
    cases hm : a.min_value with
    | none => rfl
    | some m => simpa [decide_eq_false_iff_not, not_lt] using hmin m hm
  have hmaxb : (match a.max_value with | some m => decide (v > m) | none => false) = false := by
    cases hm : a.max_value with
    | none => rfl
    | some m => simpa [decide_eq_false_iff_not, not_lt] using hmax m hm
  have hb : a.builtinCheck s = .ok () := by
    simp [Argument.builtinCheck, ht, hs, hstoi, hminb, hmaxb]
  have hck : a.customCheck s = .ok () := by
    simp [Argument.customCheck, hcv]
  constructor
  · simp [Argument.validate, hb, hck, Bind.bind, Except.bind]
  · simp [convert_value, ht, hstoi]

/-- Witness for `C9_int_validate_ignores_trailing`: the `count` option
(Int, bounds `[1, 10]`) validates the raw string `5abc` and converts
it to the integer `5`. -/
theorem C9_witness :
    countArgument.validate "5abc" = .ok () ∧
    convert_value "5abc" countArgument.type = .ok (.vInt 5) :=
  C9_int_validate_ignores_trailing countArgument "5abc" 5 1 rfl rfl (by decide)
    (fun m hm => by injection hm with h; omega)
    (fun m hm => by injection hm with h; omega)

/-- Whole-string integer parse: `stoi` succeeds and its end position
reaches the end of the string. -/
def intFull (s : String) : Option Int :=
  match stoiPos s with
  | some (i, pos) => if pos = strLen s then some i else none
  | none => none

/-- Whole-string floating-point parse: `stof` succeeds and its end
position reaches the end of the string. -/
def floatFull (s : String) : Option Rat :=
  match stofPos s with
  | some (f, pos) => if pos = strLen s then some f else none
  | none => none

/-- Modelled from the spec (§4.4), for comparison with the source's
`convert_value`: Auto conversion attempts, in order, a boolean-literal
match against exactly `true`/`false`/`1`/`0`, a whole-string integer
parse, a whole-string floating-point parse, and otherwise yields the
literal string — the first fully-consuming parse wins. -/
def spec_auto (s : String) : CppValue :=
  if s = "true" ∨ s = "false" ∨ s = "1" ∨ s = "0" then .vBool (s = "true" ∨ s = "1")
  else
    match intFull s with
    | some i => .vInt i
    | none =>
      match floatFull s with
      | some f => .vFloat f
      | none => .vStr s

/-- Claim C7 (confirmed): on an option with no declared type, the
source's `convert_value` agrees with the spec's description of Auto
conversion on every input string, and it never raises. -/
theorem C7_auto_first_full_parse_wins (s : String) :
    convert_value s .AUTO = .ok (spec_auto s) := by
  unfold convert_value spec_auto intFull floatFull
  by_cases hb : s = "true" ∨ s = "false" ∨ s = "1" ∨ s = "0"
  · simp [hb]
  · simp only [hb, if_false]
    cases hi : stoiPos s with
    | none =>
      cases hf : stofPos s with
      | none => simp
      | some q =>
        obtain ⟨f, pos2⟩ := q
        by_cases hp2 : pos2 = strLen s <;> simp [hp2]
    | some q =>
      obtain ⟨i, pos⟩ := q
      by_cases hp : pos = strLen s
      · simp [hp]
      · simp only [hp, if_false]
        cases hf : stofPos s with
        | none => simp
        | some q2 =>
          obtain ⟨f, pos2⟩ := q2
          by_cases hp2 : pos2 = strLen s <;> simp [hp2]

/-- The `key` option of the spec's environment example:
`add_argument("key").type_string().env("API_KEY")`. -/
def keyArgument : Argument :=
  (((Argument.mk0 "key").type_string).set_env "API_KEY")

/-- Claim C4 (confirmed): per-spec resolution precedence in the
resolution loop of `parse_args` — a provided command-line value makes
the outcome independent of the environment and ends up (validated and
converted) in the table; with no provided value, a set environment
variable's value is validated, converted and stored; with neither, a
required spec fails with `Missing required argument`; and otherwise
the declared default is stored untouched, with no validation or
conversion applied (no hypothesis about validators is needed). -/
theorem C4_resolution_precedence :
    (∀ (prov : List (String × String)) (env env' : Env) (res : ParsedArgs)
        (arg : Argument) (v : String), alGet? prov arg.name = some v →
        resolve_step prov env res arg = resolve_step prov env' res arg) ∧
    (∀ (prov : List (String × String)) (env : Env) (res : ParsedArgs)
        (arg : Argument) (v : String) (c : CppValue),
        alGet? prov arg.name = some v →
        arg.validate v = .ok () → convert_value v arg.type = .ok c →
        resolve_step prov env res arg
          = .ok ⟨alSet (alSet res.values arg.name arg.default_value) arg.name c⟩) ∧
    (∀ (prov : List (String × String)) (env : Env) (res : ParsedArgs)
        (arg : Argument) (ev : String) (c : CppValue),
        alGet? prov arg.name = none → arg.get_env_value env = some ev →
        arg.validate ev = .ok () → convert_value ev arg.type = .ok c →
        resolve_step prov env res arg
          = .ok ⟨alSet (alSet res.values arg.name arg.default_value) arg.name c⟩) ∧
    (∀ (prov : List (String × String)) (env : Env) (res : ParsedArgs) (arg : Argument),
        alGet? prov arg.name = none → arg.get_env_value env = none →
        arg.required = true →
        resolve_step prov env res arg
          = .error ("Missing required argument: --" ++ arg.name)) ∧
    (∀ (prov : List (String × String)) (env : Env) (res : ParsedArgs) (arg : Argument),
        alGet? prov arg.name = none → arg.get_env_value env = none →
        arg.required = false →
        resolve_step prov env res arg
          = .ok ⟨alSet res.values arg.name arg.default_value⟩) := by
  refine ⟨?_, ?_, ?_, ?_, ?_⟩
  · intro prov env env' res arg v hpv
    simp [resolve_step, hpv]
  · intro prov env res arg v c hpv hval hconv
    simp [resolve_step, hpv, hval, hconv, Bind.bind, Except.bind, Pure.pure, Except.pure]
  · intro prov env res arg ev c hpv henv hval hconv
    simp [resolve_step, hpv, henv, hval, hconv, Bind.bind, Except.bind, Pure.pure, Except.pure]
  · intro prov env res arg hpv henv hreq
    simp [resolve_step, hpv, henv, hreq]
  · intro prov env res arg hpv henv hreq
    simp [resolve_step, hpv, henv, hreq]

/-- Witness for `C4_resolution_precedence`, on concrete registries:
with `mode` provided as `fast` the outcome ignores two different
environments and stores the converted string; `key` takes the value of
`API_KEY` from the environment when not provided; a required `key`
with neither source fails; and the non-required `mode` falls back to
its default. -/
theorem C4_witness :
    (resolve_step [("mode", "fast")] (fun _ => some "E") ⟨[]⟩ modeArgument
      = resolve_step [("mode", "fast")] (fun _ => none) ⟨[]⟩ modeArgument) ∧
    (resolve_step [("mode", "fast")] (fun _ => none) ⟨[]⟩ modeArgument
      = .ok ⟨alSet (alSet [] "mode" (.vStr "x")) "mode" (.vStr "fast")⟩) ∧
    (resolve_step [] (fun v => if v = "API_KEY" then some "secret" else none) ⟨[]⟩ keyArgument
      = .ok ⟨alSet (alSet [] "key" (.vStr "")) "key" (.vStr "secret")⟩) ∧
    (resolve_step [] (fun _ => none) ⟨[]⟩ (keyArgument.set_required true)
      = .error ("Missing required argument: --" ++ "key")) ∧
    (resolve_step [] (fun _ => none) ⟨[]⟩ modeArgument
      = .ok ⟨alSet [] "mode" (.vStr "x")⟩) :=
  ⟨C4_resolution_precedence.1 [("mode", "fast")] (fun _ => some "E") (fun _ => none)
      ⟨[]⟩ modeArgument "fast" (by decide),
   C4_resolution_precedence.2.1 [("mode", "fast")] (fun _ => none) ⟨[]⟩ modeArgument
      "fast" (.vStr "fast") (by decide) (by decide) (by decide),
   C4_resolution_precedence.2.2.1 [] (fun v => if v = "API_KEY" then some "secret" else none)
      ⟨[]⟩ keyArgument "secret" (.vStr "secret") rfl (by decide) (by decide) (by decide),
   C4_resolution_precedence.2.2.2.1 [] (fun _ => none) ⟨[]⟩ (keyArgument.set_required true)
      rfl rfl rfl,
   C4_resolution_precedence.2.2.2.2 [] (fun _ => none) ⟨[]⟩ modeArgument rfl rfl rfl⟩

/-- First component of `parse_args`: every branch returns the parser
produced by `build_lookup`. -/
theorem parse_args_fst (p : ArgumentParser) (env : Env) (argv : List String) :
    (p.parse_args env argv).1 = (p.build_lookup).1 := by
  unfold ArgumentParser.parse_args
  rcases hb : p.build_lookup with ⟨p1, e⟩
  cases e with
  | some msg => rfl
  | none =>
    dsimp only
    split
    · rfl
    · split
      · rfl
      · cases htl : token_loop p1.args p1.arg_index (argv.drop 1) [] with
        | error e => rfl
        | ok prov =>
          dsimp only
          cases hrl : resolve_loop prov env p1.args ⟨[]⟩ with
          | error e => rfl
          | ok res => rfl

/-- Claim C10 (confirmed): `parse_args` never modifies the registered
specs — the returned parser keeps the exact spec list (hence every
field of every spec), together with the program name and auto-help
setting; only `arg_index` is rebuilt, to exactly what `build_lookup`
computes. -/
theorem C10_parse_args_preserves_specs (p : ArgumentParser) (env : Env) (argv : List String) :
    (p.parse_args env argv).1.args = p.args ∧
    (p.parse_args env argv).1.prog_name = p.prog_name ∧
    (p.parse_args env argv).1.auto_help = p.auto_help ∧
    (p.parse_args env argv).1.arg_index = (p.build_lookup).1.arg_index := by
  rw [parse_args_fst p env argv]
  exact ⟨rfl, rfl, rfl, rfl⟩

theorem except_bind_ok {ε α β : Type} (x : Except ε α) (f : α → Except ε β) (b : β)
    (h : (x >>= f) = .ok b) : ∃ a, x = .ok a ∧ f a = .ok b := by
  cases x with
  | error e => exact absurd h (by simp [Bind.bind, Except.bind])
  | ok a => exact ⟨a, rfl, by simpa [Bind.bind, Except.bind] using h⟩

/-- A successful resolution step leaves every table key other than the
spec's canonical name untouched. -/
theorem resolve_step_preserves_other (prov : List (String × String)) (env : Env)
    (res : ParsedArgs) (arg : Argument) (r : ParsedArgs)
    (h : resolve_step prov env res arg = .ok r) (k : String) (hk : ¬ arg.name = k) :
    alGet? r.values k = alGet? res.values k := by
  unfold resolve_step at h
  cases hp : alGet? prov arg.name with
  | some v =>
    rw [hp] at h
    dsimp only at h
    obtain ⟨u, hu, h2⟩ := except_bind_ok _ _ _ h
    obtain ⟨c, hc, h3⟩ := except_bind_ok _ _ _ h2
    have hr : r = ⟨alSet (alSet res.values arg.name arg.default_value) arg.name c⟩ :=
      (Except.ok.inj h3).symm
    rw [hr]
    simp [alGet?_alSet, hk]
  | none =>
    rw [hp] at h
    dsimp only at h
    cases he : arg.get_env_value env with
    | some ev =>
      rw [he] at h
      dsimp only at h
      obtain ⟨u, hu, h2⟩ := except_bind_ok _ _ _ h
      obtain ⟨c, hc, h3⟩ := except_bind_ok _ _ _ h2
      have hr : r = ⟨alSet (alSet res.values arg.name arg.default_value) arg.name c⟩ :=
        (Except.ok.inj h3).symm
      rw [hr]
      simp [alGet?_alSet, hk]
    | none =>
      rw [he] at h
      dsimp only at h
      by_cases hreq : arg.required = true
      · rw [if_pos hreq] at h
        exact absurd h (by simp)
      · rw [if_neg hreq] at h
        have hr : r = ⟨alSet res.values arg.name arg.default_value⟩ :=
          (Except.ok.inj h).symm
        rw [hr]
        simp [alGet?_alSet, hk]

/-- A successful resolution loop leaves every key that is no spec's
canonical name untouched. -/
theorem resolve_loop_preserves_other (prov : List (String × String)) (env : Env)
    (args : List Argument) :
    ∀ (res r : ParsedArgs), resolve_loop prov env args res = .ok r →
    ∀ k, (∀ a ∈ args, ¬ a.name = k) → alGet? r.values k = alGet? res.values k := by
  induction args with
  | nil =>
    intro res r h k _
    rw [(Except.ok.inj h).symm]
  | cons a rest ih =>
    intro res r h k hk
    unfold resolve_loop at h
    obtain ⟨res', h1, h2⟩ := except_bind_ok _ _ _ h
    have e1 := resolve_step_preserves_other prov env res a res' h1 k
      (hk a (List.mem_cons_self a rest))
    have e2 := ih res' r h2 k (fun x hx => hk x (List.mem_cons_of_mem _ hx))
    rw [e2, e1]

/-- A table produced by a successful `parse_args` comes from the
resolution loop started on the empty table over the registered
specs. -/
theorem parse_ok_from_resolve (p : ArgumentParser) (env : Env) (argv : List String)
    (res : ParsedArgs) (h : (p.parse_args env argv).2 = .ok res) :
    ∃ prov, resolve_loop prov env p.args ⟨[]⟩ = .ok res := by
  unfold ArgumentParser.parse_args at h
  rcases hb : p.build_lookup with ⟨p1, e⟩
  have hargs : p1.args = p.args := by
    have h1 : (p.build_lookup).1.args = p.args := rfl
    rw [hb] at h1
    exact h1
  rw [hb] at h
  cases e with
  | some msg => exact absurd h (by simp)
  | none =>
    dsimp only at h
    split at h
    · exact absurd h (by simp)
    · split at h
      · exact absurd h (by simp)
      · cases htl : token_loop p1.args p1.arg_index (argv.drop 1) [] with
        | error e2 =>
          rw [htl] at h
          exact absurd h (by simp)
        | ok prov =>
          rw [htl] at h
          dsimp only at h
          cases hrl : resolve_loop prov env p1.args ⟨[]⟩ with
          | error e2 =>
            rw [hrl] at h
            exact absurd h (by simp)
          | ok r0 =>
            rw [hrl] at h
            dsimp only at h
            rw [hargs] at hrl
            cases h
            exact ⟨prov, hrl⟩

/-- Claim C3 (corrected): `ParsedArgs::get` returns the stored value
when the dash-stripped query resolves to a table entry of the
requested tag, raises `out_of_range` when the key is absent and
`bad_variant_access` on a tag mismatch; but the table produced by a
successful parse is keyed by canonical names only, so a query whose
stripped form is not some spec's canonical name — in particular a
registered alias that differs from every canonical name — always
raises instead of returning the canonical entry's value. -/
theorem C3_query_semantics :
    (∀ (t : ParsedArgs) (tag : Tag) (name : String) (v : CppValue),
        alGet? t.values (queryKey name) = some v → v.tag = tag →
        t.get tag name = .ok v) ∧
    (∀ (t : ParsedArgs) (tag : Tag) (name : String),
        alGet? t.values (queryKey name) = none →
        t.get tag name = .error .out_of_range) ∧
    (∀ (t : ParsedArgs) (tag : Tag) (name : String) (v : CppValue),
        alGet? t.values (queryKey name) = some v → ¬ v.tag = tag →
        t.get tag name = .error .bad_variant_access) ∧
    (∀ (p : ArgumentParser) (env : Env) (argv : List String) (res : ParsedArgs)
        (tag : Tag) (q : String),
        (p.parse_args env argv).2 = .ok res →
        queryKey q ∉ p.args.map Argument.name →
        res.get tag q = .error .out_of_range) := by
  refine ⟨?_, ?_, ?_, ?_⟩
  · intro t tag name v hv htag
    simp [ParsedArgs.get, hv, htag]
  · intro t tag name hv
    simp [ParsedArgs.get, hv]
  · intro t tag name v hv htag
    simp [ParsedArgs.get, hv, htag]
  · intro p env argv res tag q hres hq
    obtain ⟨prov, hloop⟩ := parse_ok_from_resolve p env argv res hres
    have hk : ∀ a ∈ p.args, ¬ a.name = queryKey q := by
      intro a ha hn
      exact hq (hn ▸ List.mem_map_of_mem Argument.name ha)
    have hnone : alGet? res.values (queryKey q) = none :=
      resolve_loop_preserves_other prov env p.args ⟨[]⟩ res hloop (queryKey q) hk
    simp [ParsedArgs.get, hnone]

/-- Witness for `C3_query_semantics`, on the table parsed from
`--mode fast` for the `mode` option (alias `m`): the canonical query
(dashed or plain) returns the stored string, a missing key raises
`out_of_range`, an `Int`-tagged query on the string entry raises
`bad_variant_access`, and the registered alias `m` — not being a
canonical name — raises `out_of_range`. -/
theorem C3_witness :
    (⟨[("mode", .vStr "fast")]⟩ : ParsedArgs).get .tStr "--mode" = .ok (.vStr "fast") ∧
    (⟨[("mode", .vStr "fast")]⟩ : ParsedArgs).get .tStr "zzz" = .error .out_of_range ∧
    (⟨[("mode", .vStr "fast")]⟩ : ParsedArgs).get .tInt "mode" = .error .bad_variant_access ∧
    (⟨[("mode", .vStr "fast")]⟩ : ParsedArgs).get .tStr "m" = .error .out_of_range :=
  ⟨C3_query_semantics.1 _ .tStr "--mode" (.vStr "fast") (by decide) rfl,
   C3_query_semantics.2.1 _ .tStr "zzz" (by decide),
   C3_query_semantics.2.2.1 _ .tInt "mode" (.vStr "fast") (by decide) (by decide),
   C3_query_semantics.2.2.2 modeParser (fun _ => none) ["prog", "--mode", "fast"]
     ⟨[("mode", .vStr "fast")]⟩ .tStr "m" (by decide) (by decide)⟩

/-- Claim C3, counterexample: after parsing `--mode fast`, querying the
canonical name `mode` returns the stored string while querying the
registered alias `m` raises — the alias does not return the same
value, as the claim asserts. -/
theorem C3_counterexample_alias_query_fails :
    (modeParser.parse_args (fun _ => none) ["prog", "--mode", "fast"]).2
      = .ok ⟨[("mode", .vStr "fast")]⟩ ∧
    (⟨[("mode", .vStr "fast")]⟩ : ParsedArgs).get .tStr "mode" = .ok (.vStr "fast") ∧
    modeArgument.aliases = ["m"] ∧
    (⟨[("mode", .vStr "fast")]⟩ : ParsedArgs).get .tStr "m" = .error .out_of_range := by
  refine ⟨by decide, by decide, by decide, by decide⟩

end ArgParse

